import Mathlib

/-!
# Verification of the BeachVar agent update orchestrator

This file gives a shallow embedding of the update-orchestration core of the
BeachVar agent (`src/updater.py`, `src/backend.py`, `src/docker.py`,
`src/registry.py`) and proves the testable properties of its specification.

Modelling conventions:
* External side effects (HTTP calls, docker subprocesses, the filesystem) are
  resolved by an explicit environment record `Env`; each embedded method
  returns its result together with the successor orchestrator state and a
  trace of the external effects it performed, in order.
* Python truthiness tests on optional strings (`if not digest:` treats both
  `None` and `""` as false) are rendered with `optNonempty`.
* `datetime.time` values are rendered as `PyTime`; comparison of two times is
  lexicographic on (hour, minute, second, microsecond), as in CPython.
* The persisted version file is modelled at the JSON-value level: its content
  is the decoded dictionary (an association list with optional-string values),
  `none` standing for a missing or unparseable file.  `json.dump`/`json.load`
  of such a dictionary is the identity on the decoded value, which is the
  JSON library's contract.
-/

namespace BeachVar

/-! ## Times and the `%H:%M` parser (`datetime.strptime(s, "%H:%M").time()`) -/

/-- A `datetime.time` value (hour, minute, second, microsecond). -/
structure PyTime where
  hour : Nat
  minute : Nat
  second : Nat
  microsecond : Nat
deriving DecidableEq, Repr

/-- CPython compares `datetime.time` values lexicographically on their
components. -/
def PyTime.le (a b : PyTime) : Bool :=
  if a.hour ≠ b.hour then a.hour < b.hour
  else if a.minute ≠ b.minute then a.minute < b.minute
  else if a.second ≠ b.second then a.second < b.second
  else a.microsecond ≤ b.microsecond

/-- Split a character list on `':'` (the behaviour of `str.split(":")` /
the shape of the `"%H:%M"` format). -/
def splitOnColon : List Char → List (List Char)
  | [] => [[]]
  | c :: rest =>
    let r := splitOnColon rest
    if c = ':' then [] :: r
    else
      match r with
      | h :: t => (c :: h) :: t
      | [] => [[c]]

/-- Numeric value of a list of decimal digit characters. -/
def digitsVal (cs : List Char) : Nat :=
  cs.foldl (fun n c => n * 10 + (c.toNat - 48)) 0

/-- A field of `"%H:%M"`: one or two ASCII decimal digits. -/
def validField (cs : List Char) : Bool :=
  decide (1 ≤ cs.length) && decide (cs.length ≤ 2) && cs.all Char.isDigit

/-- `datetime.strptime(s, "%H:%M")`: exactly `HH:MM` with one- or two-digit
fields, hour in 0..23 and minute in 0..59; anything else raises `ValueError`
(rendered `none`).  CPython's parser would also accept non-ASCII unicode
digits, which never occur in this system's data and are not modelled. -/
def parseHHMM (s : String) : Option (Nat × Nat) :=
  match splitOnColon s.data with
  | [h, m] =>
    if validField h && validField m then
      let hv := digitsVal h
      let mv := digitsVal m
      if hv ≤ 23 && mv ≤ 59 then some (hv, mv) else none
    else none
  | _ => none

/-! ## Update windows (`BackendClient.is_update_allowed`) -/

/-- One update window as received from the backend: a JSON object whose
`start_time` / `end_time` / `name` keys may be absent (`window.get` then
yields the default). -/
structure Window where
  name : Option String
  start_time : Option String
  end_time : Option String
deriving DecidableEq, Repr

/-- Body of the `for window in windows:` loop of
`BackendClient.is_update_allowed`: `true` iff this window admits `now`.
A window with a missing or empty time string is skipped (`continue`), and a
`ValueError` from `strptime` is caught and also skipped. -/
def window_allows (now : PyTime) (w : Window) : Bool :=
  let start_str := w.start_time.getD ""
  let end_str := w.end_time.getD ""
  if start_str = "" || end_str = "" then false
  else
    match parseHHMM start_str, parseHHMM end_str with
    | some (sh, sm), some (eh, em) =>
      let start_time : PyTime := ⟨sh, sm, 0, 0⟩
      let end_time : PyTime := ⟨eh, em, 0, 0⟩
      if start_time.le end_time then
        -- normal window (e.g. 02:00 - 06:00)
        start_time.le now && now.le end_time
      else
        -- window crosses midnight (e.g. 23:00 - 06:00): now >= start or now <= end
        start_time.le now || now.le end_time
    | _, _ => false

/-- `BackendClient.is_update_allowed`, with the result of
`get_update_windows()` and the current local time passed explicitly.
`none` models a failed fetch, in which case updates are allowed; an empty
list also allows updates; otherwise the windows are scanned and the first
admitting window returns `true`, while falling off the loop returns
`false`. -/
def is_update_allowed (windows : Option (List Window)) (now : PyTime) : Bool :=
  match windows with
  | none => true
  | some [] => true
  | some ws => ws.any (window_allows now)

/-! ## The persisted version dictionary (`Updater._load_versions` / `_save_versions`) -/

/-- Python truthiness of an optional string: `None` and `""` are falsy.
`optNonempty x` is `some s` exactly when `if x:` would take the then-branch. -/
def optNonempty : Option String → Option String
  | some s => if s = "" then none else some s
  | none => none

/-- The decoded content of `versions.json`: a JSON object whose values are
strings or null.  (The orchestrator only ever writes the keys `"device"` and
`"agent"` with string values, but a hand-edited file may contain anything.) -/
abbrev VDict := List (String × Option String)

/-- `d.get(k)`: the first binding of `k`, defaulting to `None`. -/
def dictGet (d : VDict) (k : String) : Option String :=
  match d with
  | [] => none
  | (k', v) :: rest => if k' = k then v else dictGet rest k

/-- `d[k] = v`: replace the binding of `k` if present (JSON objects decoded by
`json.load` have unique keys), else append it. -/
def dictSet (d : VDict) (k : String) (v : Option String) : VDict :=
  match d with
  | [] => [(k, v)]
  | (k', v') :: rest =>
    if k' = k then (k, v) :: rest else (k', v') :: dictSet rest k v

/-! ### The version file text (`json.dump` / `json.load` on the subset the
updater uses: one object of plain strings and nulls) -/

/-- A character that `json.dump` writes verbatim inside a string literal:
printable ASCII other than the quote and the backslash (anything else is
escaped by the serializer and is outside the modelled subset; digests and
the two workload keys are all plain). -/
def plainJsonChar (c : Char) : Bool :=
  (32 ≤ c.toNat && c.toNat ≤ 126) && c != '"' && c != '\\'

/-- Every character of the string is plain. -/
def plainStr (s : String) : Bool := s.data.all plainJsonChar

/-- A plain value: `None`, or a plain string. -/
def plainVal : Option String → Bool
  | none => true
  | some s => plainStr s

/-- A dictionary entry whose key and value are plain. -/
def plainPair (p : String × Option String) : Bool :=
  plainStr p.1 && plainVal p.2

/-- A JSON string literal for a plain string. -/
def encString (s : String) : List Char := '"' :: (s.data ++ ['"'])

/-- A JSON value: `null` or a string literal. -/
def encValue : Option String → List Char
  | none => ['n', 'u', 'l', 'l']
  | some s => encString s

/-- One `indent=2` member line: two spaces, the quoted key, `: `, the value. -/
def encEntry (p : String × Option String) : List Char :=
  ' ' :: ' ' :: '"' :: (p.1.data ++ ['"', ':', ' '] ++ encValue p.2)

/-- The member lines joined by `,\n` (the `indent=2` item separator). -/
def joinEntries : List (String × Option String) → List Char
  | [] => []
  | [p] => encEntry p
  | p :: ps => encEntry p ++ ',' :: '\n' :: joinEntries ps

/-- The exact text produced by `json.dump(d, f, indent=2)` for a dictionary
of plain strings and nulls. -/
def jsonDump (d : VDict) : List Char :=
  match d with
  | [] => ['{', '}']
  | _ :: _ => '{' :: '\n' :: (joinEntries d ++ ['\n', '}'])

/-- JSON whitespace. -/
def isJsonWs (c : Char) : Bool := c = ' ' || c = '\n' || c = '\t' || c = '\r'

/-- Drop leading JSON whitespace. -/
def skipWs : List Char → List Char
  | [] => []
  | c :: rest => if isJsonWs c then skipWs rest else c :: rest

/-- Parse the body of a string literal up to its closing quote.  An escape
sequence is outside the modelled subset (`json.load` would decode it; the
updater never writes one). -/
def parseStringBody : List Char → Option (List Char × List Char)
  | [] => none
  | c :: rest =>
    if c = '"' then some ([], rest)
    else if c = '\\' then none
    else
      match parseStringBody rest with
      | some (s, r) => some (c :: s, r)
      | none => none

/-- Parse a JSON value of the modelled subset: a string literal or `null`. -/
def parseJsonValue : List Char → Option (Option String × List Char)
  | [] => none
  | c :: rest =>
    if c = '"' then
      match parseStringBody rest with
      | some (s, r) => some (some (String.mk s), r)
      | none => none
    else
      match c :: rest with
      | 'n' :: 'u' :: 'l' :: 'l' :: r => some (none, r)
      | _ => none

/-- Parse the members of a non-empty JSON object, consuming the closing
brace; the fuel bounds the number of members. -/
def parseMembers : Nat → List Char → Option (VDict × List Char)
  | 0, _ => none
  | fuel + 1, cs =>
    match skipWs cs with
    | '"' :: rest =>
      match parseStringBody rest with
      | some (k, r1) =>
        match skipWs r1 with
        | ':' :: r2 =>
          match parseJsonValue (skipWs r2) with
          | some (v, r3) =>
            match skipWs r3 with
            | ',' :: r4 =>
              match parseMembers fuel r4 with
              | some (d, r5) => some ((String.mk k, v) :: d, r5)
              | none => none
            | '}' :: r4 => some ([(String.mk k, v)], r4)
            | _ => none
          | none => none
        | _ => none
      | none => none
    | _ => none

/-- `json.load` on the modelled subset: a single object of string-or-null
values; anything else (or trailing garbage) fails. -/
def jsonLoad (cs : List Char) : Option VDict :=
  match skipWs cs with
  | '{' :: rest =>
    match skipWs rest with
    | '}' :: r2 => if skipWs r2 = [] then some [] else none
    | _ =>
      match parseMembers (rest.length + 1) rest with
      | some (d, r) => if skipWs r = [] then some d else none
      | none => none
  | _ => none

/-- `Updater._save_versions`: the exact file text written by
`json.dump(self.versions, f, indent=2)`. -/
def save_versions (v : VDict) : List Char := jsonDump v

/-- `Updater._load_versions`: the `VERSION_FILE` content is `none` when the
file does not exist; a present file is parsed with `json.load`, any failure
being caught and logged, yielding the default
`{"device": None, "agent": None}`. -/
def load_versions (file : Option (List Char)) : VDict :=
  match file with
  | none => [("device", none), ("agent", none)]
  | some text =>
    match jsonLoad text with
    | some d => d
    | none => [("device", none), ("agent", none)]

/-! ## Effects, environment and orchestrator state -/

/-- Image and registry constants from `src/config.py`. -/
def GHCR_REGISTRY : String := "ghcr.io"

def GHCR_USER : String := "beachvar"

def DEVICE_IMAGE : String := GHCR_REGISTRY ++ "/" ++ GHCR_USER ++ "/beachvar-device"

def AGENT_IMAGE : String := GHCR_REGISTRY ++ "/" ++ GHCR_USER ++ "/beachvar-agent"

/-- One externally visible action of the orchestrator, recorded in order of
occurrence. -/
inductive Effect where
  /-- `BackendClient.get_update_windows` (inside `is_update_allowed`). -/
  | getUpdateWindows
  /-- `DockerClient.try_pull_without_auth image tag`. -/
  | tryPullNoAuth (image tag : String)
  /-- `BackendClient.get_registry_token`. -/
  | getRegistryToken
  /-- `DockerClient.login GHCR_REGISTRY GHCR_USER token`. -/
  | dockerLogin
  /-- `DockerClient.pull_image image tag` (authenticated pull). -/
  | pullImage (image tag : String)
  /-- `RegistryClient.get_image_digest` (HTTP manifest request). -/
  | apiDigestQuery (image : String)
  /-- `DockerClient.get_remote_image_digest` (docker CLI inspection). -/
  | cliDigestQuery (image : String)
  /-- `DockerClient.restart_service service`: synchronous compose pull +
  `up -d --force-recreate service`. -/
  | restartService (service : String)
  /-- `DockerClient.compose_up_detached`: spawn the detached helper container
  running the compose command for the given services (`none` = all four,
  agent included). -/
  | composeUpDetachedEff (force_recreate : Bool) (services : Option (List String))
  /-- `DockerClient.is_container_running name`. -/
  | checkContainerRunning (name : String)
  /-- `Updater._save_versions` (write the version file). -/
  | saveVersions
  /-- `BackendClient.report_version` with the payload fields actually sent
  (a falsy argument is omitted from the payload). -/
  | reportVersion (device_version agent_version : Option String)
deriving DecidableEq, Repr

/-- Responses of the external world (backend, registry, docker daemon,
filesystem).  Where a response can plausibly depend on whether
`docker login` has succeeded in this process, the resolving function takes
that flag. -/
structure Env where
  /-- Result of `get_update_windows`: `none` on fetch failure. -/
  updateWindows : Option (List Window)
  /-- `datetime.now().time()`. -/
  now : PyTime
  /-- Result of `get_registry_token` (may be `none` or empty on failure). -/
  registryToken : Option String
  /-- Result of `docker login`. -/
  dockerLoginOk : Bool
  /-- Result of `try_pull_without_auth loggedIn image tag`. -/
  pullNoAuthOk : Bool → String → String → Bool
  /-- Result of `pull_image loggedIn image tag`. -/
  pullImageOk : Bool → String → String → Bool
  /-- Result of `RegistryClient.get_image_digest` for an image (only ever
  consulted after registry auth succeeded). -/
  apiDigest : String → Option String
  /-- Result of `DockerClient.get_remote_image_digest loggedIn image`. -/
  cliDigest : Bool → String → Option String
  /-- Result of `DockerClient.restart_service service`. -/
  restartServiceOk : String → Bool
  /-- Result of `DockerClient.compose_up_detached force_recreate services`. -/
  composeUpDetachedOk : Bool → Option (List String) → Bool
  /-- Result of `DockerClient.is_container_running name`. -/
  containerRunning : String → Bool
  /-- `self.compose_file.exists()`. -/
  composeFileExists : Bool

/-- The mutable fields of the `Updater` instance. -/
structure UState where
  /-- `self.versions` (mirrored to the version file by `_save_versions`). -/
  versions : VDict
  /-- `self._agent_update_pending`. -/
  agentUpdatePending : Bool
  /-- `self._auth_setup_done`; `none` models the attribute not yet existing
  (it is created lazily by `_ensure_registry_auth`). -/
  authSetupDone : Option Bool
  /-- Whether a `docker login` has succeeded in this process (credential
  state of the docker daemon as seen by later pulls). -/
  loggedIn : Bool
deriving DecidableEq, Repr

/-! ## Registry authentication and pulls -/

/-- `Updater._setup_registry_auth`: fetch a token from the backend (falsy ⇒
fail) then `docker login` with it.  Returns (success, loggedIn', trace). -/
def setup_registry_auth (env : Env) (loggedIn : Bool) : Bool × Bool × List Effect :=
  match optNonempty env.registryToken with
  | none => (false, loggedIn, [.getRegistryToken])
  | some _ =>
    if env.dockerLoginOk then (true, true, [.getRegistryToken, .dockerLogin])
    else (false, loggedIn, [.getRegistryToken, .dockerLogin])

/-- `Updater._ensure_registry_auth`: lazily run `_setup_registry_auth`,
caching only success (`not self._auth_setup_done` re-runs setup when the
previous attempt failed or none was made).  Returns
(success, authSetupDone', loggedIn', trace). -/
def ensure_registry_auth (env : Env) (auth : Option Bool) (loggedIn : Bool) :
    Bool × Option Bool × Bool × List Effect :=
  match auth with
  | some true => (true, some true, loggedIn, [])
  | _ =>
    let (ok, logged2, effs) := setup_registry_auth env loggedIn
    (ok, some ok, logged2, effs)

/-- `Updater._pull_with_fallback`: always try the unauthenticated pull first;
only on its failure ensure registry auth and retry with `pull_image`.
Returns (success, authSetupDone', loggedIn', trace). -/
def pull_with_fallback (env : Env) (auth : Option Bool) (loggedIn : Bool)
    (image tag : String) : Bool × Option Bool × Bool × List Effect :=
  if env.pullNoAuthOk loggedIn image tag then
    (true, auth, loggedIn, [.tryPullNoAuth image tag])
  else
    let (ok, auth2, logged2, effs) := ensure_registry_auth env auth loggedIn
    if ok then
      (env.pullImageOk logged2 image tag, auth2, logged2,
        .tryPullNoAuth image tag :: (effs ++ [.pullImage image tag]))
    else
      (false, auth2, logged2, .tryPullNoAuth image tag :: effs)

/-! ## Remote digest resolution -/

/-- `Updater._get_remote_digest_via_api`: ensure auth (on failure return
`none`), then query the registry HTTP API; a falsy digest becomes `none`.
(The source strips the `ghcr.io/` prefix before the API call; the
environment's `apiDigest` is keyed by the full image name.) -/
def get_remote_digest_via_api (env : Env) (auth : Option Bool) (loggedIn : Bool)
    (image : String) : Option String × Option Bool × Bool × List Effect :=
  let (ok, auth2, logged2, effs) := ensure_registry_auth env auth loggedIn
  if ok then
    (optNonempty (env.apiDigest image), auth2, logged2, effs ++ [.apiDigestQuery image])
  else
    (none, auth2, logged2, effs)

/-- `Updater._get_remote_digest_with_auth_fallback`: try the HTTP API, fall
back to the docker CLI, and as a last resort ensure fresh auth and retry the
CLI (that final result is returned unfiltered, as in the source). -/
def get_remote_digest_with_auth_fallback (env : Env) (auth : Option Bool)
    (loggedIn : Bool) (image : String) :
    Option String × Option Bool × Bool × List Effect :=
  let (d1, auth1, logged1, e1) := get_remote_digest_via_api env auth loggedIn image
  match optNonempty d1 with
  | some d => (some d, auth1, logged1, e1)
  | none =>
    match optNonempty (env.cliDigest logged1 image) with
    | some d => (some d, auth1, logged1, e1 ++ [.cliDigestQuery image])
    | none =>
      let (ok, auth2, logged2, e2) := ensure_registry_auth env auth1 logged1
      if ok then
        (env.cliDigest logged2 image, auth2, logged2,
          e1 ++ [.cliDigestQuery image] ++ e2 ++ [.cliDigestQuery image])
      else
        (none, auth2, logged2, e1 ++ [.cliDigestQuery image] ++ e2)

/-! ## Update checks (`check_device_update` / `check_agent_update`) -/

/-- `Updater.check_device_update`: resolve the remote device digest; a falsy
result means "no update known" (`None`); otherwise propose the remote digest
iff it differs from `self.versions.get("device")`. -/
def check_device_update (env : Env) (s : UState) :
    Option String × UState × List Effect :=
  let (rd, auth2, logged2, effs) :=
    get_remote_digest_with_auth_fallback env s.authSetupDone s.loggedIn DEVICE_IMAGE
  let s2 : UState := { s with authSetupDone := auth2, loggedIn := logged2 }
  match optNonempty rd with
  | none => (none, s2, effs)
  | some r =>
    if dictGet s.versions "device" ≠ some r then (some r, s2, effs)
    else (none, s2, effs)

/-- `Updater.check_agent_update`: same as the device check, against
`AGENT_IMAGE` and the stored `"agent"` digest. -/
def check_agent_update (env : Env) (s : UState) :
    Option String × UState × List Effect :=
  let (rd, auth2, logged2, effs) :=
    get_remote_digest_with_auth_fallback env s.authSetupDone s.loggedIn AGENT_IMAGE
  let s2 : UState := { s with authSetupDone := auth2, loggedIn := logged2 }
  match optNonempty rd with
  | none => (none, s2, effs)
  | some r =>
    if dictGet s.versions "agent" ≠ some r then (some r, s2, effs)
    else (none, s2, effs)

/-! ## Applying updates (`update_device` / `update_agent`) -/

/-- `Updater.update_device`: pull with fallback, synchronously
pull-then-force-recreate the `device` service, and only then record the new
digest, save it and report it.  Any failure returns `false` with the store
untouched. -/
def update_device (env : Env) (s : UState) (new_digest : String) :
    Bool × UState × List Effect :=
  let (ok, auth2, logged2, pe) :=
    pull_with_fallback env s.authSetupDone s.loggedIn DEVICE_IMAGE "latest"
  let s1 : UState := { s with authSetupDone := auth2, loggedIn := logged2 }
  if !ok then (false, s1, pe)
  else if !(env.restartServiceOk "device") then
    (false, s1, pe ++ [.restartService "device"])
  else
    (true, { s1 with versions := dictSet s1.versions "device" (some new_digest) },
      pe ++ [.restartService "device", .saveVersions,
        .reportVersion (optNonempty (some new_digest)) none])

/-- `Updater.update_agent` (self-update): pull with fallback, record, save and
report the new digest, and set `self._agent_update_pending`; the recreate of
the agent container itself is deferred to the next `sync_config`. -/
def update_agent (env : Env) (s : UState) (new_digest : String) :
    Bool × UState × List Effect :=
  let (ok, auth2, logged2, pe) :=
    pull_with_fallback env s.authSetupDone s.loggedIn AGENT_IMAGE "latest"
  let s1 : UState := { s with authSetupDone := auth2, loggedIn := logged2 }
  if !ok then (false, s1, pe)
  else
    (true,
      { s1 with versions := dictSet s1.versions "agent" (some new_digest),
                agentUpdatePending := true },
      pe ++ [.saveVersions, .reportVersion none (optNonempty (some new_digest))])

/-! ## The update-check cycle (`run_once`) -/

/-- The device block of `Updater.run_once` (`device_digest =
self.check_device_update(); if device_digest: if self.update_device(...):
updated = True`): the boolean is this block's own success flag. -/
def device_phase (env : Env) (s : UState) : Bool × UState × List Effect :=
  let (device_digest, s1, e1) := check_device_update env s
  match device_digest with
  | some d =>
    let (ok, s2, e2) := update_device env s1 d
    (ok, s2, e1 ++ e2)
  | none => (false, s1, e1)

/-- The agent block of `Updater.run_once`, run after the device block. -/
def agent_phase (env : Env) (s : UState) : Bool × UState × List Effect :=
  let (agent_digest, s1, e1) := check_agent_update env s
  match agent_digest with
  | some d =>
    let (ok, s2, e2) := update_agent env s1 d
    (ok, s2, e1 ++ e2)
  | none => (false, s1, e1)

/-- `Updater.run_once`: bail out (returning `false`, touching nothing) when
outside the update windows; otherwise the device block runs first, then the
agent block on its successor state, and the cycle reports whether any update
was applied. -/
def run_once (env : Env) (s : UState) : Bool × UState × List Effect :=
  if !(is_update_allowed env.updateWindows env.now) then
    (false, s, [.getUpdateWindows])
  else
    let (updatedD, s2, e12) := device_phase env s
    let (updatedA, s4, e34) := agent_phase env s2
    (updatedD || updatedA, s4, .getUpdateWindows :: (e12 ++ e34))

/-! ## Reconciliation (`sync_config`) and the detached compose command -/

/-- The compose command string built by `DockerClient.compose_up_detached`
for the detached helper container.  A falsy `services` argument (absent or
empty list) starts all four services, the agent included. -/
def compose_up_detached_command (services : Option (List String))
    (force_recreate : Bool) : String :=
  let force_flag := if force_recreate then "--force-recreate " else ""
  match services with
  | some (s :: rest) => "up -d " ++ force_flag ++ String.intercalate " " (s :: rest)
  | _ => "up -d " ++ force_flag ++ "agent device cloudflared ttyd"

/-- `Updater.sync_config`: if an agent update is pending, force-recreate all
services via the detached helper and clear the flag only on success;
otherwise a plain detached `compose up -d` that leaves the flag alone. -/
def sync_config (env : Env) (s : UState) : Bool × UState × List Effect :=
  if s.agentUpdatePending then
    let result := env.composeUpDetachedOk true none
    if result then
      (true, { s with agentUpdatePending := false }, [.composeUpDetachedEff true none])
    else
      (false, s, [.composeUpDetachedEff true none])
  else
    let result := env.composeUpDetachedOk false none
    (result, s, [.composeUpDetachedEff false none])

/-! ## Bootstrap -/

/-- The unconditional tail of `Updater.bootstrap` (lines 351-369): resolve
both remote digests with the docker CLI, overwrite the stored entries with
any truthy result, save, and report; `bootstrap` then returns `True`. -/
def bootstrap_tail (env : Env) (s : UState) (pre : List Effect) :
    Bool × UState × List Effect :=
  let rd := env.cliDigest s.loggedIn DEVICE_IMAGE
  let ra := env.cliDigest s.loggedIn AGENT_IMAGE
  let v1 :=
    match optNonempty rd with
    | some d => dictSet s.versions "device" (some d)
    | none => s.versions
  let v2 :=
    match optNonempty ra with
    | some a => dictSet v1 "agent" (some a)
    | none => v1
  (true, { s with versions := v2 },
    pre ++ [.cliDigestQuery DEVICE_IMAGE, .cliDigestQuery AGENT_IMAGE,
      .saveVersions, .reportVersion (optNonempty rd) (optNonempty ra)])

/-- `Updater.bootstrap`: fail fast when the compose file is missing; apply a
proposed device update (its failure is only logged); when no update is
proposed, pull the device image if its container is down and start everything
via the detached helper (whose failure aborts bootstrap); finally resolve
both remote digests again, persist and report them unconditionally. -/
def bootstrap (env : Env) (s : UState) : Bool × UState × List Effect :=
  if !env.composeFileExists then (false, s, [])
  else
    let (device_digest, s1, e1) := check_device_update env s
    match device_digest with
    | some d =>
      let (_updated, s2, e2) := update_device env s1 d
      bootstrap_tail env s2 (e1 ++ e2)
    | none =>
      let (s2, e2) :=
        if !(env.containerRunning "beachvar-device") then
          let (_ok, auth2, logged2, pe) :=
            pull_with_fallback env s1.authSetupDone s1.loggedIn DEVICE_IMAGE "latest"
          (({ s1 with authSetupDone := auth2, loggedIn := logged2 } : UState),
            Effect.checkContainerRunning "beachvar-device" :: pe)
        else (s1, [Effect.checkContainerRunning "beachvar-device"])
      if !(env.composeUpDetachedOk false none) then
        (false, s2, e1 ++ e2 ++ [.composeUpDetachedEff false none])
      else
        bootstrap_tail env s2 (e1 ++ e2 ++ [.composeUpDetachedEff false none])

/-- Effects that recreate or restart a container (used to phrase the
self-update deferral property). -/
def Effect.isRecreate : Effect → Bool
  | .restartService _ => true
  | .composeUpDetachedEff _ _ => true
  | _ => false

/-! ## Claim-side renderings and concrete fixtures -/

/-- The parsed (start, end) times of a window, when both are present,
non-empty and well-formed; `none` exactly when the `is_update_allowed` loop
skips the window. -/
def window_times (w : Window) : Option (PyTime × PyTime) :=
  let start_str := w.start_time.getD ""
  let end_str := w.end_time.getD ""
  if start_str = "" || end_str = "" then none
  else
    match parseHHMM start_str, parseHHMM end_str with
    | some (sh, sm), some (eh, em) => some (⟨sh, sm, 0, 0⟩, ⟨eh, em, 0, 0⟩)
    | _, _ => none

/-- The specification's notion of "now is inside the window [st, et]":
boundary inclusive, and a midnight-wrapping window (st > et) admits
`now >= st OR now <= et`. -/
def inside_window_claim (now st et : PyTime) : Bool :=
  if st.le et then st.le now && now.le et
  else st.le now || now.le et

/-- A fully cooperative environment (all external calls succeed, both images
resolve to the digest `sha256:bbb`), used to instantiate theorems with
hypotheses at concrete inputs. -/
def envOk : Env where
  updateWindows := none
  now := ⟨12, 0, 0, 0⟩
  registryToken := some "tok"
  dockerLoginOk := true
  pullNoAuthOk := fun _ _ _ => true
  pullImageOk := fun _ _ _ => true
  apiDigest := fun _ => some "sha256:bbb"
  cliDigest := fun _ _ => some "sha256:bbb"
  restartServiceOk := fun _ => true
  composeUpDetachedOk := fun _ _ => true
  containerRunning := fun _ => true
  composeFileExists := true

/-- A freshly loaded orchestrator state with stored digests for both
workloads. -/
def st0 : UState where
  versions := [("device", some "sha256:aaa"), ("agent", some "sha256:ccc")]
  agentUpdatePending := false
  authSetupDone := none
  loggedIn := false

/-- An environment in which the backend has no registry token and every pull
and restart fails, but the docker CLI still resolves remote digests (to
`sha256:bbb`) and the device container is already running. -/
def envPullFail : Env where
  updateWindows := none
  now := ⟨12, 0, 0, 0⟩
  registryToken := none
  dockerLoginOk := false
  pullNoAuthOk := fun _ _ _ => false
  pullImageOk := fun _ _ _ => false
  apiDigest := fun _ => none
  cliDigest := fun _ _ => some "sha256:bbb"
  restartServiceOk := fun _ => false
  composeUpDetachedOk := fun _ _ => true
  containerRunning := fun _ => true
  composeFileExists := true


/-! ## Theorems -/

theorem window_allows_eq_times (now : PyTime) (w : Window) :
    window_allows now w =
      match window_times w with
      | some (st, et) => inside_window_claim now st et
      | none => false := by
  rcases hs : parseHHMM (w.start_time.getD "") with _ | ⟨sh, sm⟩ <;>
    rcases he : parseHHMM (w.end_time.getD "") with _ | ⟨eh, em⟩ <;>
      simp only [window_allows, window_times, inside_window_claim, hs, he] <;>
      split <;> rfl

theorem strMk_data (s : String) : String.mk s.data = s := rfl

theorem skipWs_cons_ws (c : Char) (cs : List Char) (h : isJsonWs c = true) :
    skipWs (c :: cs) = skipWs cs := by
  simp [skipWs, h]

theorem skipWs_cons_not_ws (c : Char) (cs : List Char) (h : isJsonWs c = false) :
    skipWs (c :: cs) = c :: cs := by
  simp [skipWs, h]

theorem plainJsonChar_ne (c : Char) (h : plainJsonChar c = true) :
    c ≠ '"' ∧ c ≠ '\\' := by
  simp [plainJsonChar] at h
  exact ⟨h.1.2, h.2⟩

theorem parseStringBody_plain (s r : List Char)
    (h : s.all plainJsonChar = true) :
    parseStringBody (s ++ '"' :: r) = some (s, r) := by
  induction s with
  | nil => simp [parseStringBody]
  | cons c cs ih =>
    simp only [List.all_cons, Bool.and_eq_true] at h
    obtain ⟨h1, h2⟩ := plainJsonChar_ne c h.1
    simp [parseStringBody, h1, h2, ih h.2]

theorem parseJsonValue_enc (v : Option String) (r : List Char)
    (hv : plainVal v = true) :
    parseJsonValue (encValue v ++ r) = some (v, r) := by
  cases v with
  | none => simp [encValue, parseJsonValue]
  | some s =>
    have hs : s.data.all plainJsonChar = true := hv
    simp only [encValue, encString, List.cons_append, List.append_assoc,
      List.singleton_append]
    simp [parseJsonValue, parseStringBody_plain s.data r hs, strMk_data]

theorem skipWs_encValue (v : Option String) (X : List Char) :
    skipWs (encValue v ++ X) = encValue v ++ X := by
  cases v <;> simp [encValue, encString, skipWs, isJsonWs]

theorem parseMembers_congr (f : Nat) (c1 c2 : List Char)
    (h : skipWs c1 = skipWs c2) :
    parseMembers f c1 = parseMembers f c2 := by
  cases f with
  | zero => rfl
  | succ f => simp only [parseMembers, h]

theorem parseMembers_entry (f : Nat) (p : String × Option String) (X : List Char)
    (hk : p.1.data.all plainJsonChar = true) (hv : plainVal p.2 = true) :
    parseMembers (f + 1) (encEntry p ++ X) =
      (match skipWs X with
       | ',' :: r4 =>
         (match parseMembers f r4 with
          | some (d, r5) => some ((p.1, p.2) :: d, r5)
          | none => none)
       | '}' :: r4 => some ([(p.1, p.2)], r4)
       | _ => none) := by
  have h1 : skipWs (encEntry p ++ X) =
      '"' :: (p.1.data ++ ['"', ':', ' '] ++ encValue p.2 ++ X) := by
    simp [encEntry, skipWs, isJsonWs, List.append_assoc]
  have h2 : parseStringBody (p.1.data ++ ['"', ':', ' '] ++ encValue p.2 ++ X) =
      some (p.1.data, ':' :: ' ' :: (encValue p.2 ++ X)) := by
    have h := parseStringBody_plain p.1.data (':' :: ' ' :: (encValue p.2 ++ X)) hk
    simpa [List.append_assoc] using h
  have h3 : skipWs (':' :: ' ' :: (encValue p.2 ++ X)) =
      ':' :: ' ' :: (encValue p.2 ++ X) :=
    skipWs_cons_not_ws _ _ (by decide)
  have h4 : skipWs (' ' :: (encValue p.2 ++ X)) = encValue p.2 ++ X := by
    rw [skipWs_cons_ws _ _ (by decide), skipWs_encValue]
  have h5 : parseJsonValue (encValue p.2 ++ X) = some (p.2, X) :=
    parseJsonValue_enc p.2 X hv
  simp only [parseMembers, h1, h2, h3, h4, h5, strMk_data]

theorem parseMembers_joinEntries (ps : List (String × Option String)) :
    ∀ fuel : Nat, ps ≠ [] → ps.length ≤ fuel →
    (∀ p ∈ ps, plainPair p = true) →
    parseMembers fuel (joinEntries ps ++ ['\n', '}']) = some (ps, []) := by
  induction ps with
  | nil => intro fuel hne _ _; exact absurd rfl hne
  | cons p ps ih =>
    intro fuel _ hfuel hplain
    cases fuel with
    | zero => simp at hfuel
    | succ f =>
      have hp : plainPair p = true := hplain p (by simp)
      rw [plainPair, Bool.and_eq_true] at hp
      have hk : p.1.data.all plainJsonChar = true := hp.1
      have hv : plainVal p.2 = true := hp.2
      cases ps with
      | nil =>
        show parseMembers (f + 1) (encEntry p ++ ['\n', '}']) = some ([p], [])
        rw [parseMembers_entry f p ['\n', '}'] hk hv]
        simp [skipWs, isJsonWs]
      | cons q qs =>
        show parseMembers (f + 1)
            ((encEntry p ++ ',' :: '\n' :: joinEntries (q :: qs)) ++ ['\n', '}']) =
          some (p :: q :: qs, [])
        rw [List.append_assoc, parseMembers_entry f p _ hk hv]
        have hskip : skipWs (',' :: '\n' :: (joinEntries (q :: qs) ++ ['\n', '}'])) =
            ',' :: '\n' :: (joinEntries (q :: qs) ++ ['\n', '}']) :=
          skipWs_cons_not_ws _ _ (by decide)
        have hrec : parseMembers f ('\n' :: (joinEntries (q :: qs) ++ ['\n', '}'])) =
            some (q :: qs, []) := by
          rw [parseMembers_congr f _ (joinEntries (q :: qs) ++ ['\n', '}'])
            (skipWs_cons_ws _ _ (by decide))]
          exact ih f (by simp) (by simpa using Nat.le_of_succ_le_succ hfuel) 
            (fun x hx => hplain x (by simp [hx]))
        simp only [List.cons_append, hskip, hrec]
  

theorem joinEntries_length (ps : List (String × Option String)) :
    ps.length ≤ (joinEntries ps).length := by
  induction ps with
  | nil => simp [joinEntries]
  | cons p ps ih =>
    cases ps with
    | nil => simp [joinEntries, encEntry]
    | cons q qs =>
      simp only [joinEntries, List.length_append, List.length_cons] at ih ⊢
      simp [encEntry]
      omega

theorem joinEntries_cons_shape (p : String × Option String)
    (ps : List (String × Option String)) :
    ∃ T : List Char, joinEntries (p :: ps) = ' ' :: ' ' :: '"' :: T := by
  cases ps with
  | nil => exact ⟨_, rfl⟩
  | cons q qs => exact ⟨_, rfl⟩

theorem jsonLoad_jsonDump (d : VDict) (h : ∀ p ∈ d, plainPair p = true) :
    jsonLoad (jsonDump d) = some d := by
  cases d with
  | nil => rfl
  | cons p ps =>
    obtain ⟨T, hT⟩ := joinEntries_cons_shape p ps
    show jsonLoad ('{' :: '\n' :: (joinEntries (p :: ps) ++ ['\n', '}'])) =
      some (p :: ps)
    have h1 : skipWs ('{' :: '\n' :: (joinEntries (p :: ps) ++ ['\n', '}'])) =
        '{' :: '\n' :: (joinEntries (p :: ps) ++ ['\n', '}']) :=
      skipWs_cons_not_ws _ _ (by decide)
    have h2 : skipWs ('\n' :: (joinEntries (p :: ps) ++ ['\n', '}'])) =
        '"' :: (T ++ ['\n', '}']) := by
      rw [hT]
      simp [skipWs, isJsonWs]
    have h3 : parseMembers
        (('\n' :: (joinEntries (p :: ps) ++ ['\n', '}'])).length + 1)
        ('\n' :: (joinEntries (p :: ps) ++ ['\n', '}'])) = some (p :: ps, []) := by
      rw [parseMembers_congr _ _ (joinEntries (p :: ps) ++ ['\n', '}'])
        (skipWs_cons_ws _ _ (by decide))]
      refine parseMembers_joinEntries (p :: ps) _ (by simp) ?_ h
      have hlen := joinEntries_length (p :: ps)
      simp only [List.length_cons, List.length_append] at hlen ⊢
      omega
    simp only [jsonLoad, h1, h2, h3]
    simp [skipWs]

theorem any_window_allows_eq (now : PyTime) (l : List Window) :
    l.any (window_allows now) =
      l.any (fun w =>
        match window_times w with
        | some (st, et) => inside_window_claim now st et
        | none => false) := by
  induction l with
  | nil => rfl
  | cons w t ih => simp only [List.any_cons, ih, window_allows_eq_times]

/-- C3: `is_update_allowed` is true when windows are unavailable or empty,
and otherwise true iff the current time is inside at least one window,
boundary-inclusive and with midnight-wrapping windows tested by
`now >= start OR now <= end`; checked on the claim's examples. -/
theorem C3_update_allowed_gating :
    (∀ now : PyTime, is_update_allowed none now = true)
  ∧ (∀ now : PyTime, is_update_allowed (some []) now = true)
  ∧ (∀ (ws : List Window) (now : PyTime), ws ≠ [] →
      is_update_allowed (some ws) now =
        ws.any (fun w =>
          match window_times w with
          | some (st, et) => inside_window_claim now st et
          | none => false))
  ∧ is_update_allowed (some [⟨none, some "02:00", some "06:00"⟩]) ⟨2, 0, 0, 0⟩ = true
  ∧ is_update_allowed (some [⟨none, some "02:00", some "06:00"⟩]) ⟨6, 0, 0, 0⟩ = true
  ∧ is_update_allowed (some [⟨none, some "02:00", some "06:00"⟩]) ⟨1, 59, 0, 0⟩ = false
  ∧ is_update_allowed (some [⟨none, some "23:00", some "06:00"⟩]) ⟨23, 30, 0, 0⟩ = true
  ∧ is_update_allowed (some [⟨none, some "23:00", some "06:00"⟩]) ⟨0, 0, 0, 0⟩ = true
  ∧ is_update_allowed (some [⟨none, some "23:00", some "06:00"⟩]) ⟨5, 59, 0, 0⟩ = true
  ∧ is_update_allowed (some [⟨none, some "23:00", some "06:00"⟩]) ⟨12, 0, 0, 0⟩ = false := by
  refine ⟨fun _ => rfl, fun _ => rfl, ?_, by decide, by decide, by decide, by decide,
    by decide, by decide, by decide⟩
  intro ws now hne
  cases ws with
  | nil => exact absurd rfl hne
  | cons w t => exact any_window_allows_eq now (w :: t)

theorem C3_update_allowed_gating_witness :
    ([(⟨none, some "02:00", some "06:00"⟩ : Window)] ≠ [])
  ∧ is_update_allowed (some [⟨none, some "02:00", some "06:00"⟩]) ⟨3, 0, 0, 0⟩ =
      [(⟨none, some "02:00", some "06:00"⟩ : Window)].any (fun w =>
        match window_times w with
        | some (st, et) => inside_window_claim ⟨3, 0, 0, 0⟩ st et
        | none => false) :=
  ⟨by decide, C3_update_allowed_gating.2.2.1 _ _ (by decide)⟩

/-- C10: a non-empty windows list in which every window is missing, empty or
malformed in one of its time strings yields `false` (updates disallowed) for
every current time, without raising. -/
theorem C10_malformed_windows_disallow (ws : List Window) (now : PyTime)
    (hne : ws ≠ []) (hbad : ∀ w ∈ ws, window_times w = none) :
    is_update_allowed (some ws) now = false := by
  cases ws with
  | nil => exact absurd rfl hne
  | cons w t =>
    show (w :: t).any (window_allows now) = false
    rw [List.any_eq_false]
    intro x hx
    rw [window_allows_eq_times, hbad x hx]
    simp

theorem C10_malformed_windows_disallow_witness :
    ([(⟨some "w1", none, some "06:00"⟩ : Window), ⟨none, some "", some "06:00"⟩,
      ⟨none, some "25:00", some "06:00"⟩, ⟨none, some "02:00", some "6pm"⟩] ≠ [])
  ∧ (∀ w ∈ [(⟨some "w1", none, some "06:00"⟩ : Window), ⟨none, some "", some "06:00"⟩,
      ⟨none, some "25:00", some "06:00"⟩, ⟨none, some "02:00", some "6pm"⟩],
      window_times w = none)
  ∧ is_update_allowed
      (some [⟨some "w1", none, some "06:00"⟩, ⟨none, some "", some "06:00"⟩,
        ⟨none, some "25:00", some "06:00"⟩, ⟨none, some "02:00", some "6pm"⟩])
      ⟨3, 0, 0, 0⟩ = false :=
  ⟨by decide, by decide,
    C10_malformed_windows_disallow _ ⟨3, 0, 0, 0⟩ (by decide) (by decide)⟩

/-- C1: for each workload, a successfully resolved remote digest proposes an
update iff it differs from the stored digest (a null stored digest counts as
different), and a failed resolution (falsy result) proposes nothing. -/
theorem C1_update_proposed_iff_digest_differs (env : Env) (s : UState) :
    (optNonempty
        (get_remote_digest_with_auth_fallback env s.authSetupDone s.loggedIn
          DEVICE_IMAGE).1 = none →
      (check_device_update env s).1 = none)
  ∧ (∀ d : String,
      optNonempty
        (get_remote_digest_with_auth_fallback env s.authSetupDone s.loggedIn
          DEVICE_IMAGE).1 = some d →
      (check_device_update env s).1 =
        if dictGet s.versions "device" = some d then none else some d)
  ∧ (optNonempty
        (get_remote_digest_with_auth_fallback env s.authSetupDone s.loggedIn
          AGENT_IMAGE).1 = none →
      (check_agent_update env s).1 = none)
  ∧ (∀ d : String,
      optNonempty
        (get_remote_digest_with_auth_fallback env s.authSetupDone s.loggedIn
          AGENT_IMAGE).1 = some d →
      (check_agent_update env s).1 =
        if dictGet s.versions "agent" = some d then none else some d) := by
  refine ⟨?_, ?_, ?_, ?_⟩
  · intro h
    rcases hres : get_remote_digest_with_auth_fallback env s.authSetupDone s.loggedIn
      DEVICE_IMAGE with ⟨rd, auth2, logged2, effs⟩
    rw [hres] at h
    simp only [check_device_update, hres]
    simp [h]
  · intro d h
    rcases hres : get_remote_digest_with_auth_fallback env s.authSetupDone s.loggedIn
      DEVICE_IMAGE with ⟨rd, auth2, logged2, effs⟩
    rw [hres] at h
    simp only [check_device_update, hres]
    simp only [h]
    by_cases hd : dictGet s.versions "device" = some d <;> simp [hd]
  · intro h
    rcases hres : get_remote_digest_with_auth_fallback env s.authSetupDone s.loggedIn
      AGENT_IMAGE with ⟨rd, auth2, logged2, effs⟩
    rw [hres] at h
    simp only [check_agent_update, hres]
    simp [h]
  · intro d h
    rcases hres : get_remote_digest_with_auth_fallback env s.authSetupDone s.loggedIn
      AGENT_IMAGE with ⟨rd, auth2, logged2, effs⟩
    rw [hres] at h
    simp only [check_agent_update, hres]
    simp only [h]
    by_cases hd : dictGet s.versions "agent" = some d <;> simp [hd]

theorem C1_update_proposed_iff_digest_differs_witness :
    optNonempty
      (get_remote_digest_with_auth_fallback envOk st0.authSetupDone st0.loggedIn
        DEVICE_IMAGE).1 = some "sha256:bbb"
  ∧ (check_device_update envOk st0).1 =
      (if dictGet st0.versions "device" = some "sha256:bbb" then none
       else some "sha256:bbb") :=
  ⟨by decide,
    (C1_update_proposed_iff_digest_differs envOk st0).2.1 "sha256:bbb" (by decide)⟩

/-- C7: every pull first attempts the unauthenticated path, whatever the
cached auth state; on its success nothing else happens; a token fetch, login
or authenticated pull occurs only after the cheap attempt failed, and when
auth is then available the authenticated pull is the single final action. -/
theorem C7_pull_unauth_attempt_first (env : Env) (auth : Option Bool)
    (logged : Bool) (image tag : String) :
    ((pull_with_fallback env auth logged image tag).2.2.2.head? =
        some (.tryPullNoAuth image tag))
  ∧ (env.pullNoAuthOk logged image tag = true →
      pull_with_fallback env auth logged image tag =
        (true, auth, logged, [.tryPullNoAuth image tag]))
  ∧ (∀ e ∈ (pull_with_fallback env auth logged image tag).2.2.2,
      e ≠ .tryPullNoAuth image tag → env.pullNoAuthOk logged image tag = false)
  ∧ (env.pullNoAuthOk logged image tag = false →
      (ensure_registry_auth env auth logged).1 = true →
      (pull_with_fallback env auth logged image tag).2.2.2.getLast? =
        some (.pullImage image tag)) := by
  by_cases hp : env.pullNoAuthOk logged image tag
  · refine ⟨?_, ?_, ?_, ?_⟩
    · simp [pull_with_fallback, hp]
    · intro _
      simp [pull_with_fallback, hp]
    · intro e he hne
      simp [pull_with_fallback, hp] at he
      exact absurd he hne
    · intro hfalse
      exact absurd hp (by simp [hfalse])
  · rcases hens : ensure_registry_auth env auth logged with ⟨ok, auth2, logged2, effs⟩
    have hpf : pull_with_fallback env auth logged image tag =
        if ok then
          (env.pullImageOk logged2 image tag, auth2, logged2,
            .tryPullNoAuth image tag :: (effs ++ [.pullImage image tag]))
        else (false, auth2, logged2, .tryPullNoAuth image tag :: effs) := by
      simp [pull_with_fallback, hp, hens]
    refine ⟨?_, ?_, ?_, ?_⟩
    · rw [hpf]
      cases ok <;> simp
    · intro h
      exact absurd h hp
    · intro e _ _
      simpa using hp
    · intro _ hok
      simp only at hok
      rw [hpf, if_pos hok]
      show (Effect.tryPullNoAuth image tag ::
        (effs ++ [Effect.pullImage image tag])).getLast? =
          some (Effect.pullImage image tag)
      rw [show Effect.tryPullNoAuth image tag ::
            (effs ++ [Effect.pullImage image tag]) =
          (Effect.tryPullNoAuth image tag :: effs) ++
            [Effect.pullImage image tag] by simp]
      exact List.getLast?_concat _

theorem C7_pull_unauth_attempt_first_witness :
    (envOk.pullNoAuthOk false DEVICE_IMAGE "latest" = true)
  ∧ pull_with_fallback envOk none false DEVICE_IMAGE "latest" =
      (true, none, false, [.tryPullNoAuth DEVICE_IMAGE "latest"]) :=
  ⟨by decide,
    (C7_pull_unauth_attempt_first envOk none false DEVICE_IMAGE "latest").2.1 (by decide)⟩

theorem setup_registry_auth_trace (env : Env) (logged : Bool) :
    ∀ e ∈ (setup_registry_auth env logged).2.2,
      e = Effect.getRegistryToken ∨ e = Effect.dockerLogin := by
  intro e he
  rcases htok : optNonempty env.registryToken with _ | t
  · simp [setup_registry_auth, htok] at he
    simp [he]
  · by_cases hl : env.dockerLoginOk <;>
      simp [setup_registry_auth, htok, hl] at he <;>
      rcases he with h1 | h1 <;> simp [h1]

theorem ensure_registry_auth_trace (env : Env) (auth : Option Bool) (logged : Bool) :
    ∀ e ∈ (ensure_registry_auth env auth logged).2.2.2,
      e = Effect.getRegistryToken ∨ e = Effect.dockerLogin := by
  intro e he
  rcases hs : setup_registry_auth env logged with ⟨ok, l2, effs⟩
  have hsub : ∀ x ∈ effs, x = Effect.getRegistryToken ∨ x = Effect.dockerLogin := by
    intro x hx
    exact setup_registry_auth_trace env logged x (by rw [hs]; exact hx)
  match auth with
  | some true => simp [ensure_registry_auth] at he
  | some false =>
    simp [ensure_registry_auth, hs] at he
    exact hsub e he
  | none =>
    simp [ensure_registry_auth, hs] at he
    exact hsub e he

theorem pull_with_fallback_trace (env : Env) (auth : Option Bool) (logged : Bool)
    (image tag : String) :
    ∀ e ∈ (pull_with_fallback env auth logged image tag).2.2.2,
      e = Effect.tryPullNoAuth image tag ∨ e = Effect.getRegistryToken ∨
      e = Effect.dockerLogin ∨ e = Effect.pullImage image tag := by
  intro e he
  by_cases hp : env.pullNoAuthOk logged image tag
  · simp [pull_with_fallback, hp] at he
    simp [he]
  · rcases hens : ensure_registry_auth env auth logged with ⟨ok, auth2, logged2, effs⟩
    have hsub : ∀ x ∈ effs, x = Effect.getRegistryToken ∨ x = Effect.dockerLogin := by
      intro x hx
      exact ensure_registry_auth_trace env auth logged x (by rw [hens]; exact hx)
    cases ok
    · simp [pull_with_fallback, hp, hens] at he
      rcases he with h1 | h1
      · simp [h1]
      · rcases hsub e h1 with h2 | h2 <;> simp [h2]
    · simp [pull_with_fallback, hp, hens] at he
      rcases he with h1 | h1 | h1
      · simp [h1]
      · rcases hsub e h1 with h2 | h2 <;> simp [h2]
      · simp [h1]

/-- C2: `update_agent` never recreates or restarts any container within the
call — its effect trace contains no recreate effect; on success it has
(only) pulled the agent image, recorded and saved the new digest, reported
it, and set the pending-self-update flag, deferring the recreate to a later
reconciliation tick. -/
theorem C2_self_update_deferred (env : Env) (s : UState) (d : String) :
    (∀ e ∈ (update_agent env s d).2.2, e.isRecreate = false)
  ∧ ((update_agent env s d).1 = true →
      (update_agent env s d).2.1.agentUpdatePending = true
      ∧ (update_agent env s d).2.1.versions = dictSet s.versions "agent" (some d)
      ∧ Effect.saveVersions ∈ (update_agent env s d).2.2
      ∧ Effect.reportVersion none (optNonempty (some d)) ∈
          (update_agent env s d).2.2) := by
  rcases hpull : pull_with_fallback env s.authSetupDone s.loggedIn AGENT_IMAGE "latest"
    with ⟨ok, auth2, logged2, pe⟩
  have hmem : ∀ e ∈ pe, e.isRecreate = false := by
    intro e hepe
    rcases pull_with_fallback_trace env s.authSetupDone s.loggedIn AGENT_IMAGE "latest" e
      (by rw [hpull]; exact hepe) with h | h | h | h <;> simp [h, Effect.isRecreate]
  cases ok
  · constructor
    · intro e he
      simp [update_agent, hpull] at he
      exact hmem e he
    · intro hsucc
      simp [update_agent, hpull] at hsucc
  · constructor
    · intro e he
      simp [update_agent, hpull] at he
      rcases he with h | h | h
      · exact hmem e h
      · simp [h, Effect.isRecreate]
      · simp [h, Effect.isRecreate]
    · intro _
      refine ⟨by simp [update_agent, hpull], by simp [update_agent, hpull], ?_, ?_⟩
      · simp [update_agent, hpull]
      · simp [update_agent, hpull]

theorem C2_self_update_deferred_witness :
    (update_agent envOk st0 "sha256:bbb").1 = true
  ∧ (update_agent envOk st0 "sha256:bbb").2.1.agentUpdatePending = true :=
  ⟨by decide, ((C2_self_update_deferred envOk st0 "sha256:bbb").2 (by decide)).1⟩

/-- C4: each reconciliation cycle with the pending-self-update flag set
force-recreates all services (agent included) through the detached helper,
clearing the flag exactly on success and leaving the state untouched on
failure; without the flag it performs a non-destructive detached
`compose up -d` and leaves the flag unchanged. -/
theorem C4_sync_config_reconciliation (env : Env) (s : UState) :
    (s.agentUpdatePending = true →
      (env.composeUpDetachedOk true none = true →
        sync_config env s =
          (true, { s with agentUpdatePending := false },
            [.composeUpDetachedEff true none]))
      ∧ (env.composeUpDetachedOk true none = false →
        sync_config env s = (false, s, [.composeUpDetachedEff true none])))
  ∧ (s.agentUpdatePending = false →
      sync_config env s =
        (env.composeUpDetachedOk false none, s, [.composeUpDetachedEff false none]))
  ∧ compose_up_detached_command none true =
      "up -d --force-recreate agent device cloudflared ttyd" :=
  ⟨fun hp => ⟨fun hok => by simp [sync_config, hp, hok],
    fun hok => by simp [sync_config, hp, hok]⟩,
   fun hp => by simp [sync_config, hp], rfl⟩

theorem C4_sync_config_reconciliation_witness :
    ({ st0 with agentUpdatePending := true } : UState).agentUpdatePending = true
  ∧ envOk.composeUpDetachedOk true none = true
  ∧ sync_config envOk { st0 with agentUpdatePending := true } =
      (true, { st0 with agentUpdatePending := false },
        [.composeUpDetachedEff true none]) :=
  ⟨rfl, rfl,
    ((C4_sync_config_reconciliation envOk { st0 with agentUpdatePending := true }).1
      rfl).1 rfl⟩

/-- C9: when `is_update_allowed` is false, `run_once` returns false with the
state (stored versions and pending-self-update flag included) unchanged and
no external effect beyond the windows fetch — the maintenance window gates
the device check and the agent self-update check alike. -/
theorem C9_window_gates_whole_cycle (env : Env) (s : UState)
    (h : is_update_allowed env.updateWindows env.now = false) :
    run_once env s = (false, s, [.getUpdateWindows])
  ∧ (run_once env s).2.1 = s
  ∧ ∀ e ∈ (run_once env s).2.2, e = Effect.getUpdateWindows := by
  have h1 : run_once env s = (false, s, [.getUpdateWindows]) := by
    simp [run_once, h]
  refine ⟨h1, by rw [h1], ?_⟩
  rw [h1]
  intro e he
  simpa using he

theorem C9_window_gates_whole_cycle_witness :
    is_update_allowed
      (some [(⟨none, some "02:00", some "06:00"⟩ : Window)]) ⟨12, 0, 0, 0⟩ = false
  ∧ run_once
      { envOk with updateWindows := some [⟨none, some "02:00", some "06:00"⟩] } st0 =
      (false, st0, [.getUpdateWindows]) :=
  ⟨by decide,
    (C9_window_gates_whole_cycle
      { envOk with updateWindows := some [⟨none, some "02:00", some "06:00"⟩] } st0
      (by decide)).1⟩

theorem dictGet_dictSet (d : VDict) (k k' : String) (v : Option String) :
    dictGet (dictSet d k v) k' = if k = k' then v else dictGet d k' := by
  induction d with
  | nil => simp [dictSet, dictGet]
  | cons p rest ih =>
    rcases p with ⟨k1, v1⟩
    by_cases h1 : k1 = k <;> by_cases h2 : k1 = k' <;> by_cases h3 : k = k' <;>
      simp_all [dictSet, dictGet]

theorem check_agent_update_state (env : Env) (s : UState) :
    (check_agent_update env s).2.1.versions = s.versions ∧
    (check_agent_update env s).2.1.agentUpdatePending = s.agentUpdatePending := by
  rcases hres : get_remote_digest_with_auth_fallback env s.authSetupDone s.loggedIn
    AGENT_IMAGE with ⟨rd, a2, l2, effs⟩
  simp only [check_agent_update, hres]
  rcases h2 : optNonempty rd with _ | r
  · simp
  · by_cases hq : dictGet s.versions "agent" = some r <;> simp [hq]

theorem check_device_update_state (env : Env) (s : UState) :
    (check_device_update env s).2.1.versions = s.versions ∧
    (check_device_update env s).2.1.agentUpdatePending = s.agentUpdatePending := by
  rcases hres : get_remote_digest_with_auth_fallback env s.authSetupDone s.loggedIn
    DEVICE_IMAGE with ⟨rd, a2, l2, effs⟩
  simp only [check_device_update, hres]
  rcases h2 : optNonempty rd with _ | r
  · simp
  · by_cases hq : dictGet s.versions "device" = some r <;> simp [hq]

theorem update_agent_versions_device (env : Env) (s : UState) (d : String) :
    dictGet (update_agent env s d).2.1.versions "device" =
      dictGet s.versions "device" := by
  rcases hpull : pull_with_fallback env s.authSetupDone s.loggedIn AGENT_IMAGE "latest"
    with ⟨ok, a2, l2, pe⟩
  cases ok <;> simp [update_agent, hpull, dictGet_dictSet]

/-- C6: within one update-check cycle the device workload is checked and (if
outdated) updated strictly before the agent workload is touched — `run_once`
is the device block followed by the agent block on its successor state, with
independent success flags — and the agent block never alters the stored
device digest, so an agent-step failure cannot abandon or undo an
already-applied device update. -/
theorem C6_device_updated_before_agent (env : Env) (s : UState) :
    (is_update_allowed env.updateWindows env.now = true →
      run_once env s =
        (let dres := device_phase env s
         let ares := agent_phase env dres.2.1
         (dres.1 || ares.1, ares.2.1,
           Effect.getUpdateWindows :: (dres.2.2 ++ ares.2.2))))
  ∧ (∀ t : UState,
      dictGet (agent_phase env t).2.1.versions "device" =
        dictGet t.versions "device")
  ∧ (is_update_allowed env.updateWindows env.now = true →
      dictGet (run_once env s).2.1.versions "device" =
        dictGet (device_phase env s).2.1.versions "device") := by
  have hagent : ∀ t : UState,
      dictGet (agent_phase env t).2.1.versions "device" =
        dictGet t.versions "device" := by
    intro t
    rcases ha : check_agent_update env t with ⟨ad, s1, e1⟩
    have hv1 : s1.versions = t.versions := by
      have h := (check_agent_update_state env t).1
      rw [ha] at h
      exact h
    rcases ad with _ | a
    · simp [agent_phase, ha, hv1]
    · rcases hu : update_agent env s1 a with ⟨ok, s2, e2⟩
      have h2 := update_agent_versions_device env s1 a
      rw [hu] at h2
      simp [agent_phase, ha, hu]
      rw [h2, hv1]
  have heq : is_update_allowed env.updateWindows env.now = true →
      run_once env s =
        (let dres := device_phase env s
         let ares := agent_phase env dres.2.1
         (dres.1 || ares.1, ares.2.1,
           Effect.getUpdateWindows :: (dres.2.2 ++ ares.2.2))) := by
    intro h
    rcases hd : device_phase env s with ⟨u1, s2, e12⟩
    rcases ha : agent_phase env s2 with ⟨u2, s4, e34⟩
    simp [run_once, h, hd, ha]
  refine ⟨heq, hagent, fun h => ?_⟩
  rw [heq h]
  exact hagent (device_phase env s).2.1

theorem C6_device_updated_before_agent_witness :
    is_update_allowed envOk.updateWindows envOk.now = true
  ∧ run_once envOk st0 =
      (let dres := device_phase envOk st0
       let ares := agent_phase envOk dres.2.1
       (dres.1 || ares.1, ares.2.1,
         Effect.getUpdateWindows :: (dres.2.2 ++ ares.2.2))) :=
  ⟨by decide, (C6_device_updated_before_agent envOk st0).1 (by decide)⟩

theorem C5_counterexample :
    bootstrap envPullFail st0 =
      (true,
        ⟨[("device", some "sha256:bbb"), ("agent", some "sha256:bbb")],
          false, some false, false⟩,
        [.getRegistryToken, .cliDigestQuery DEVICE_IMAGE,
         .tryPullNoAuth DEVICE_IMAGE "latest", .getRegistryToken,
         .cliDigestQuery DEVICE_IMAGE, .cliDigestQuery AGENT_IMAGE,
         .saveVersions, .reportVersion (some "sha256:bbb") (some "sha256:bbb")])
  ∧ dictGet st0.versions "device" = some "sha256:aaa"
  ∧ dictGet (bootstrap envPullFail st0).2.1.versions "device" = some "sha256:bbb"
  ∧ Effect.restartService "device" ∉ (bootstrap envPullFail st0).2.2
  ∧ (∀ e ∈ (bootstrap envPullFail st0).2.2, e.isRecreate = false)
  ∧ Effect.saveVersions ∈ (bootstrap envPullFail st0).2.2 := by
  decide

theorem update_device_versions (env : Env) (s : UState) (d : String) :
    ((update_device env s d).1 = true ∧
      (update_device env s d).2.1.versions = dictSet s.versions "device" (some d))
    ∨ ((update_device env s d).1 = false ∧
      (update_device env s d).2.1.versions = s.versions) := by
  rcases hpull : pull_with_fallback env s.authSetupDone s.loggedIn DEVICE_IMAGE "latest"
    with ⟨ok, a2, l2, pe⟩
  cases ok
  · right
    simp [update_device, hpull]
  · by_cases hr : env.restartServiceOk "device"
    · left
      simp [update_device, hpull, hr]
    · right
      simp [update_device, hpull, hr]

theorem update_agent_versions (env : Env) (s : UState) (d : String) :
    ((update_agent env s d).1 = true ∧
      (update_agent env s d).2.1.versions = dictSet s.versions "agent" (some d))
    ∨ ((update_agent env s d).1 = false ∧
      (update_agent env s d).2.1.versions = s.versions) := by
  rcases hpull : pull_with_fallback env s.authSetupDone s.loggedIn AGENT_IMAGE "latest"
    with ⟨ok, a2, l2, pe⟩
  cases ok
  · right
    simp [update_agent, hpull]
  · left
    simp [update_agent, hpull]

theorem device_phase_versions (env : Env) (s : UState) :
    ((device_phase env s).1 = false ∧ (device_phase env s).2.1.versions = s.versions)
    ∨ ((device_phase env s).1 = true ∧
        ∃ d, (device_phase env s).2.1.versions = dictSet s.versions "device" (some d)) := by
  rcases hd : check_device_update env s with ⟨dd, s1, e1⟩
  have hv : s1.versions = s.versions := by
    have h := (check_device_update_state env s).1
    rw [hd] at h
    exact h
  rcases dd with _ | d
  · left
    simp [device_phase, hd, hv]
  · rcases update_device_versions env s1 d with ⟨h1, h2⟩ | ⟨h1, h2⟩
    · right
      refine ⟨by simp [device_phase, hd, h1], d, ?_⟩
      simp only [device_phase, hd]
      rw [h2, hv]
    · left
      constructor
      · simp [device_phase, hd, h1]
      · simp only [device_phase, hd]
        rw [h2, hv]

theorem agent_phase_versions (env : Env) (s : UState) :
    ((agent_phase env s).1 = false ∧ (agent_phase env s).2.1.versions = s.versions)
    ∨ ((agent_phase env s).1 = true ∧
        ∃ d, (agent_phase env s).2.1.versions = dictSet s.versions "agent" (some d)) := by
  rcases ha : check_agent_update env s with ⟨ad, s1, e1⟩
  have hv : s1.versions = s.versions := by
    have h := (check_agent_update_state env s).1
    rw [ha] at h
    exact h
  rcases ad with _ | d
  · left
    simp [agent_phase, ha, hv]
  · rcases update_agent_versions env s1 d with ⟨h1, h2⟩ | ⟨h1, h2⟩
    · right
      refine ⟨by simp [agent_phase, ha, h1], d, ?_⟩
      simp only [agent_phase, ha]
      rw [h2, hv]
    · left
      constructor
      · simp [agent_phase, ha, h1]
      · simp only [agent_phase, ha]
        rw [h2, hv]

theorem dictSet_some_preserves (d : VDict) (k k' : String) (v : String)
    (h : (dictGet d k').isSome = true) :
    (dictGet (dictSet d k (some v)) k').isSome = true := by
  rw [dictGet_dictSet]
  split <;> simp [h]

theorem device_phase_false_versions (env : Env) (s : UState)
    (h : (device_phase env s).1 = false) :
    (device_phase env s).2.1.versions = s.versions := by
  rcases device_phase_versions env s with ⟨_, hv⟩ | ⟨ht, _⟩
  · exact hv
  · rw [h] at ht
    simp at ht

theorem agent_phase_false_versions (env : Env) (s : UState)
    (h : (agent_phase env s).1 = false) :
    (agent_phase env s).2.1.versions = s.versions := by
  rcases agent_phase_versions env s with ⟨_, hv⟩ | ⟨ht, _⟩
  · exact hv
  · rw [h] at ht
    simp at ht

theorem bootstrap_tail_preserves (env : Env) (s : UState) (pre : List Effect)
    (k : String) (h : (dictGet s.versions k).isSome = true) :
    (dictGet (bootstrap_tail env s pre).2.1.versions k).isSome = true := by
  rcases hd : optNonempty (env.cliDigest s.loggedIn DEVICE_IMAGE) with _ | dd <;>
    rcases ha : optNonempty (env.cliDigest s.loggedIn AGENT_IMAGE) with _ | ad <;>
    simp only [bootstrap_tail, hd, ha]
  · exact h
  · exact dictSet_some_preserves _ _ _ _ h
  · exact dictSet_some_preserves _ _ _ _ h
  · exact dictSet_some_preserves _ _ _ _ (dictSet_some_preserves _ _ _ _ h)

theorem bootstrap_preserves (env : Env) (s : UState) (k : String)
    (h : (dictGet s.versions k).isSome = true) :
    (dictGet (bootstrap env s).2.1.versions k).isSome = true := by
  by_cases hc : env.composeFileExists
  · rcases hd : check_device_update env s with ⟨dd, s1, e1⟩
    have hv1 : s1.versions = s.versions := by
      have hh := (check_device_update_state env s).1
      rw [hd] at hh
      exact hh
    have h1 : (dictGet s1.versions k).isSome = true := by
      rw [hv1]
      exact h
    rcases dd with _ | d
    · rcases hp : pull_with_fallback env s1.authSetupDone s1.loggedIn DEVICE_IMAGE
        "latest" with ⟨ok2, a2, l2, pe⟩
      by_cases hcu : env.composeUpDetachedOk false none <;>
        by_cases hr : env.containerRunning "beachvar-device" <;>
        simp only [bootstrap, hc, hd, hp, hr, hcu, Bool.not_true, Bool.not_false,
          if_false, if_true, Bool.false_eq_true, Bool.true_eq_false]
      · exact bootstrap_tail_preserves env _ _ k h1
      · exact bootstrap_tail_preserves env _ _ k h1
      · exact h1
      · exact h1
    · rcases hu : update_device env s1 d with ⟨ok, s2, e2⟩
      have h2 : (dictGet s2.versions k).isSome = true := by
        rcases update_device_versions env s1 d with ⟨_, hv⟩ | ⟨_, hv⟩ <;> rw [hu] at hv
        · have hv2 : s2.versions = dictSet s1.versions "device" (some d) := hv
          rw [hv2]
          exact dictSet_some_preserves _ _ _ _ h1
        · have hv2 : s2.versions = s1.versions := hv
          rw [hv2]
          exact h1
      simp only [bootstrap, hc, hd, hu, if_true]
      exact bootstrap_tail_preserves env _ _ k h2
  · have hc2 : env.composeFileExists = false := by
      simpa using hc
    simp only [bootstrap, hc2, Bool.not_false, if_true]
    exact h

/-- C5 (amended): in the steady-state operations the Version Store is mutated
only immediately after a successful update application — an update function
whose run leaves the store changed must have succeeded, and the change is
exactly the recording of the applied digest; `sync_config` never touches the
store; and `run_once` changes it only in a cycle that applied some update.
`bootstrap`, however, additionally overwrites stored digests with freshly
resolved remote digests irrespective of update success (the counterexample);
and no operation ever deletes an entry. -/
theorem C5_store_mutation_discipline (env : Env) (s : UState) (d : String) :
    ((update_device env s d).2.1.versions ≠ s.versions →
      (update_device env s d).1 = true
      ∧ (update_device env s d).2.1.versions = dictSet s.versions "device" (some d))
  ∧ ((update_agent env s d).2.1.versions ≠ s.versions →
      (update_agent env s d).1 = true
      ∧ (update_agent env s d).2.1.versions = dictSet s.versions "agent" (some d))
  ∧ (sync_config env s).2.1.versions = s.versions
  ∧ ((run_once env s).2.1.versions ≠ s.versions → (run_once env s).1 = true)
  ∧ (∀ k : String, (dictGet s.versions k).isSome = true →
      (dictGet (run_once env s).2.1.versions k).isSome = true)
  ∧ (∀ k : String, (dictGet s.versions k).isSome = true →
      (dictGet (bootstrap env s).2.1.versions k).isSome = true) := by
  refine ⟨?_, ?_, ?_, ?_, ?_, fun k hk => bootstrap_preserves env s k hk⟩
  · intro hne
    rcases update_device_versions env s d with ⟨h1, h2⟩ | ⟨h1, h2⟩
    · exact ⟨h1, h2⟩
    · exact absurd h2 hne
  · intro hne
    rcases update_agent_versions env s d with ⟨h1, h2⟩ | ⟨h1, h2⟩
    · exact ⟨h1, h2⟩
    · exact absurd h2 hne
  · by_cases hp : s.agentUpdatePending
    · by_cases hok : env.composeUpDetachedOk true none <;> simp [sync_config, hp, hok]
    · simp [sync_config, hp]
  · intro hne
    by_cases hallow : is_update_allowed env.updateWindows env.now
    · rcases hd : device_phase env s with ⟨u1, s2, e12⟩
      rcases ha : agent_phase env s2 with ⟨u2, s4, e34⟩
      have hrun : run_once env s =
          (u1 || u2, s4, Effect.getUpdateWindows :: (e12 ++ e34)) := by
        simp [run_once, hallow, hd, ha]
      rw [hrun] at hne ⊢
      cases u1
      · cases u2
        · exfalso
          apply hne
          have h1 : s2.versions = s.versions := by
            have hh := device_phase_false_versions env s (by rw [hd])
            rw [hd] at hh
            exact hh
          have h2 : s4.versions = s2.versions := by
            have hh := agent_phase_false_versions env s2 (by rw [ha])
            rw [ha] at hh
            exact hh
          show s4.versions = s.versions
          rw [h2, h1]
        · rfl
      · rfl
    · have hrun : run_once env s = (false, s, [Effect.getUpdateWindows]) := by
        simp [run_once, hallow]
      rw [hrun] at hne
      exact absurd rfl hne
  · intro k hk
    by_cases hallow : is_update_allowed env.updateWindows env.now
    · rcases hd : device_phase env s with ⟨u1, s2, e12⟩
      rcases ha : agent_phase env s2 with ⟨u2, s4, e34⟩
      have hrun : run_once env s =
          (u1 || u2, s4, Effect.getUpdateWindows :: (e12 ++ e34)) := by
        simp [run_once, hallow, hd, ha]
      rw [hrun]
      have hk2 : (dictGet s2.versions k).isSome = true := by
        rcases device_phase_versions env s with ⟨_, hv⟩ | ⟨_, dd, hv⟩ <;> rw [hd] at hv
        · have hv2 : s2.versions = s.versions := hv
          rw [hv2]
          exact hk
        · have hv2 : s2.versions = dictSet s.versions "device" (some dd) := hv
          rw [hv2]
          exact dictSet_some_preserves _ _ _ _ hk
      have hk4 : (dictGet s4.versions k).isSome = true := by
        rcases agent_phase_versions env s2 with ⟨_, hv⟩ | ⟨_, dd, hv⟩ <;> rw [ha] at hv
        · have hv2 : s4.versions = s2.versions := hv
          rw [hv2]
          exact hk2
        · have hv2 : s4.versions = dictSet s2.versions "agent" (some dd) := hv
          rw [hv2]
          exact dictSet_some_preserves _ _ _ _ hk2
      exact hk4
    · have hrun : run_once env s = (false, s, [Effect.getUpdateWindows]) := by
        simp [run_once, hallow]
      rw [hrun]
      exact hk

theorem C5_store_mutation_discipline_witness :
    (update_device envOk st0 "sha256:bbb").2.1.versions ≠ st0.versions
  ∧ ((update_device envOk st0 "sha256:bbb").1 = true
    ∧ (update_device envOk st0 "sha256:bbb").2.1.versions =
        dictSet st0.versions "device" (some "sha256:bbb")) :=
  ⟨by decide, (C5_store_mutation_discipline envOk st0 "sha256:bbb").1 (by decide)⟩

/-- C8: Version Store round-trip — writing the mapping
`{device: D, agent: A}` as the version file text and reloading it yields the
same mapping (for any plain digest strings, which every registry digest is),
while a missing or unparseable state file loads as
`{device: null, agent: null}` without raising. -/
theorem C8_version_store_roundtrip :
    (∀ D A : String, plainStr D = true → plainStr A = true →
      load_versions (some (save_versions
        [("device", some D), ("agent", some A)])) =
        [("device", some D), ("agent", some A)])
  ∧ load_versions none = [("device", none), ("agent", none)]
  ∧ load_versions (some ("beachvar 7".data)) =
      [("device", none), ("agent", none)] := by
  refine ⟨?_, rfl, by decide⟩
  intro D A hD hA
  have h := jsonLoad_jsonDump [("device", some D), ("agent", some A)] ?_
  · simp [load_versions, save_versions, h]
  · intro p hp
    simp only [List.mem_cons, List.mem_singleton] at hp
    have hdev : plainStr "device" = true := by decide
    have hag : plainStr "agent" = true := by decide
    rcases hp with h1 | h1 | h1
    · rw [h1]
      simp [plainPair, plainVal, hdev, hD]
    · rw [h1]
      simp [plainPair, plainVal, hag, hA]
    · simp at h1

theorem C8_version_store_roundtrip_witness :
    plainStr "sha256:1111" = true ∧ plainStr "sha256:2222" = true
  ∧ load_versions (some (save_versions
      [("device", some "sha256:1111"), ("agent", some "sha256:2222")])) =
      [("device", some "sha256:1111"), ("agent", some "sha256:2222")] :=
  ⟨by decide, by decide,
    C8_version_store_roundtrip.1 "sha256:1111" "sha256:2222"
      (by decide) (by decide)⟩

end BeachVar
